import Mathlib

/-!
Verification of the role-hierarchical messaging / posting / notification
backend (Express + Prisma controllers in `src/src`, Convex schema and
mutations in `src/convex/schema.ts`).

The embedding below translates the relevant TypeScript functions into
executable Lean definitions:

* `validateMessagePermissions` — `src/src/middleware/auth.middleware.ts`
* the Convex document store and its mutations (`likePost`, `likeComment`,
  `createPost`, `createComment`, `deleteComment`, `getConversation`) —
  `src/convex/schema.ts`
* the Express/Prisma `sendMessage` handler (permission gate, recipient
  resolution, message insert, recipients connect) and `createNotification` —
  `src/src/controllers/message.controller.ts`,
  `src/src/controllers/notification.controller.ts`
* the Express/Prisma comment/like handlers with an explicit store-failure
  model — `src/src/controllers/post.controller.ts`

Roles and branches are strings, exactly as in the source (the code compares
string literals such as "OFFICIAL"). Nullable TypeScript values are
`Option`; JavaScript truthiness of optional strings (`if (targetBranch)`)
is modelled by `optTruthy`, which is false on `none` and on the empty
string. Fallible store operations are `Except` values; handlers that catch
errors are total functions returning the post-catch state.
-/

namespace NotifApp

/-- A user row as used by the permission and resolution code: `role` is one
of the string literals "OFFICIAL" / "TEACHER" / "STUDENT" (the middleware
defends against other values), `branch` is nullable. -/
structure UserRec where
  id : String
  role : String
  branch : Option String
deriving Repr, DecidableEq

/-- Shallow embedding of `validateMessagePermissions` from
`src/src/middleware/auth.middleware.ts` (lines 118–139): officials may
always send; teachers only to students of their own branch; students only
to students; any other role is denied. -/
def validateMessagePermissions (sender : UserRec) (targetRole : String)
    (targetBranch : Option String) : Bool :=
  if sender.role = "OFFICIAL" then
    true
  else if sender.role = "TEACHER" then
    decide (targetRole = "STUDENT") && decide (targetBranch = sender.branch)
  else if sender.role = "STUDENT" then
    decide (targetRole = "STUDENT")
  else
    false

/-! ## Convex document store (`src/convex/schema.ts`)

Documents live in tables keyed by insertion-assigned numeric ids. `dbGet`,
`dbPatch`, `dbDelete` model `ctx.db.get` / `ctx.db.patch` / `ctx.db.delete`
on one table; inserts append at the end (convex's ascending `_creationTime`
order). A convex mutation that throws performs no writes beyond those
already made; in the mutations below every `throw` happens before the
first write, so an error leaves the store unchanged. -/

/-- A `posts` table document (schema.ts lines 19–29). -/
structure PostDoc where
  authorId : String
  content : String
  mediaUrl : Option String
  mediaType : Option String
  likes : Int
  likedBy : List String
  commentCount : Int
  timestamp : Nat
deriving Repr, DecidableEq

/-- A `comments` table document (schema.ts lines 32–41). -/
structure CommentDoc where
  postId : Nat
  authorId : String
  content : String
  likes : Int
  likedBy : List String
  timestamp : Nat
deriving Repr, DecidableEq

/-- Look up the document with a given id (`ctx.db.get`). -/
def dbGet {α : Type} (tbl : List (Nat × α)) (i : Nat) : Option α :=
  match tbl with
  | [] => none
  | (j, a) :: rest => if j = i then some a else dbGet rest i

/-- Replace the fields of the document with a given id (`ctx.db.patch`). -/
def dbPatch {α : Type} (tbl : List (Nat × α)) (i : Nat) (f : α → α) :
    List (Nat × α) :=
  match tbl with
  | [] => []
  | (j, a) :: rest => if j = i then (j, f a) :: rest else (j, a) :: dbPatch rest i f

/-- Remove the document with a given id (`ctx.db.delete`). -/
def dbDelete {α : Type} (tbl : List (Nat × α)) (i : Nat) : List (Nat × α) :=
  match tbl with
  | [] => []
  | (j, a) :: rest => if j = i then rest else (j, a) :: dbDelete rest i

/-- The convex store relevant to the engagement mutations: the `posts` and
`comments` tables plus the id counter for inserts. -/
structure ConvexDB where
  posts : List (Nat × PostDoc)
  comments : List (Nat × CommentDoc)
  nextId : Nat
deriving Repr, DecidableEq

def emptyConvexDB : ConvexDB := ⟨[], [], 0⟩

namespace Convex

/-- `createPost` mutation (schema.ts 204–221): insert a post with
`likes: 0, likedBy: [], commentCount: 0`. -/
def createPost (db : ConvexDB) (authorId content : String)
    (mediaUrl mediaType : Option String) (ts : Nat) : ConvexDB :=
  { db with
    posts := db.posts ++ [(db.nextId, ⟨authorId, content, mediaUrl, mediaType, 0, [], 0, ts⟩)],
    nextId := db.nextId + 1 }

/-- `likePost` mutation (schema.ts 224–253): fetch the post (throwing when
absent), test membership of `userId` in `likedBy` (`includes`), then patch
`likes` and `likedBy` with values computed from the fetched document. -/
def likePost (db : ConvexDB) (postId : Nat) (userId : String) :
    Except String ConvexDB :=
  match dbGet db.posts postId with
  | none => .error "Post not found"
  | some post =>
    if decide (userId ∈ post.likedBy) then
      .ok { db with posts := dbPatch db.posts postId (fun p =>
        { p with likes := post.likes - 1,
                 likedBy := post.likedBy.filter (fun uid => decide (uid ≠ userId)) }) }
    else
      .ok { db with posts := dbPatch db.posts postId (fun p =>
        { p with likes := post.likes + 1,
                 likedBy := post.likedBy ++ [userId] }) }

/-- `likeComment` mutation (schema.ts 283–312): same toggle on a comment. -/
def likeComment (db : ConvexDB) (commentId : Nat) (userId : String) :
    Except String ConvexDB :=
  match dbGet db.comments commentId with
  | none => .error "Comment not found"
  | some comment =>
    if decide (userId ∈ comment.likedBy) then
      .ok { db with comments := dbPatch db.comments commentId (fun c =>
        { c with likes := comment.likes - 1,
                 likedBy := comment.likedBy.filter (fun uid => decide (uid ≠ userId)) }) }
    else
      .ok { db with comments := dbPatch db.comments commentId (fun c =>
        { c with likes := comment.likes + 1,
                 likedBy := comment.likedBy ++ [userId] }) }

/-- `createComment` mutation (schema.ts 256–280): insert the comment with
`likes: 0, likedBy: []`, then fetch the parent post and, when it exists,
patch `commentCount` to one more than the fetched value. -/
def createComment (db : ConvexDB) (postId : Nat) (authorId content : String)
    (ts : Nat) : ConvexDB :=
  let db1 : ConvexDB :=
    { db with
      comments := db.comments ++ [(db.nextId, ⟨postId, authorId, content, 0, [], ts⟩)],
      nextId := db.nextId + 1 }
  match dbGet db1.posts postId with
  | some post =>
    { db1 with posts := dbPatch db1.posts postId (fun p =>
        { p with commentCount := post.commentCount + 1 }) }
  | none => db1

/-- `deleteComment` mutation (schema.ts 315–346): fetch the comment
(throwing when absent), check ownership (throwing otherwise), delete the
row, then fetch the parent post and, when it exists, patch `commentCount`
to `Math.max(0, commentCount - 1)` — the defensive floor. -/
def deleteComment (db : ConvexDB) (commentId : Nat) (userId : String) :
    Except String ConvexDB :=
  match dbGet db.comments commentId with
  | none => .error "Comment not found"
  | some comment =>
    if decide (comment.authorId ≠ userId) then
      .error "Insufficient permissions"
    else
      let db1 : ConvexDB := { db with comments := dbDelete db.comments commentId }
      match dbGet db1.posts comment.postId with
      | some post =>
        .ok { db1 with posts := dbPatch db1.posts comment.postId (fun p =>
            { p with commentCount := max 0 (post.commentCount - 1) }) }
      | none => .ok db1

end Convex

/-- The public engagement / comment operations on the convex store. An
operation that throws (like/delete on a missing document, delete by a
non-author) leaves the store unchanged. -/
inductive ConvexOp where
  | createPost (authorId content : String) (mediaUrl mediaType : Option String) (ts : Nat)
  | createComment (postId : Nat) (authorId content : String) (ts : Nat)
  | likePost (postId : Nat) (userId : String)
  | likeComment (commentId : Nat) (userId : String)
  | deleteComment (commentId : Nat) (userId : String)
deriving Repr, DecidableEq

def applyConvexOp (db : ConvexDB) : ConvexOp → ConvexDB
  | .createPost a c mu mt ts => Convex.createPost db a c mu mt ts
  | .createComment pid a c ts => Convex.createComment db pid a c ts
  | .likePost pid u =>
    match Convex.likePost db pid u with
    | .ok db' => db'
    | .error _ => db
  | .likeComment cid u =>
    match Convex.likeComment db cid u with
    | .ok db' => db'
    | .error _ => db
  | .deleteComment cid u =>
    match Convex.deleteComment db cid u with
    | .ok db' => db'
    | .error _ => db

def runConvex (db : ConvexDB) (ops : List ConvexOp) : ConvexDB :=
  ops.foldl applyConvexOp db

/-- Every post and comment document in the store has `likes` equal to the
number of (pairwise-distinct) user ids in `likedBy`. -/
def likesInv (db : ConvexDB) : Prop :=
  (∀ e ∈ db.posts, e.2.likes = (e.2.likedBy.length : Int) ∧ e.2.likedBy.Nodup) ∧
  (∀ e ∈ db.comments, e.2.likes = (e.2.likedBy.length : Int) ∧ e.2.likedBy.Nodup)

/-- Demonstration operation sequence for the C2 witness: a post is created,
liked once, commented on, and the comment is liked. -/
def demoEngOps : List ConvexOp :=
  [.createPost "a" "p" none none 0, .likePost 0 "u1",
   .createComment 0 "b" "c" 1, .likeComment 1 "u2"]

/-- Every post document in the store has a non-negative `commentCount`.

This holds of honest states and also of the desynchronized states a lost
increment produces (where fewer counts than live comments are recorded),
which is what the defensive `Math.max(0, ...)` floor in `deleteComment`
protects. -/
def countInv (db : ConvexDB) : Prop :=
  ∀ e ∈ db.posts, 0 ≤ e.2.commentCount

/-! ## Express/Prisma layer (`src/src/controllers`)

Rows carry their id; `prisma.<table>.create` appends a row with the next
fresh id. A handler is modelled on the success path as a pure function;
the handlers used by the atomicity claim additionally take `fuel`, the
number of store writes that succeed before the store fails — the failing
write raises, the handler's catch block answers 500, and nothing already
written is rolled back (the controllers use no transaction). -/

/-- A `Post` row as used by `post.controller.ts`. -/
structure PrismaPost where
  id : Nat
  authorId : String
  content : String
  mediaUrl : Option String
  mediaType : Option String
  likes : Int
  likedBy : List String
  commentCount : Int
deriving Repr, DecidableEq

/-- A `Comment` row as used by `post.controller.ts`. -/
structure PrismaComment where
  id : Nat
  postId : Nat
  authorId : String
  content : String
  likes : Int
  likedBy : List String
deriving Repr, DecidableEq

/-- A `Message` row as used by `message.controller.ts`; `recipients` is the
many-to-many relation populated by the `connect` update. -/
structure MessageRec where
  id : Nat
  senderId : String
  content : String
  messageType : String
  targetRole : Option String
  targetBranch : Option String
  recipients : List String
  isRead : Bool
deriving Repr, DecidableEq

/-- A `Notification` row as used by `notification.controller.ts`. -/
structure NotificationRec where
  id : Nat
  userId : String
  type : String
  referenceId : String
  content : String
  isRead : Bool
deriving Repr, DecidableEq

/-- The relational store behind the Express controllers. -/
structure AppDB where
  users : List UserRec
  posts : List PrismaPost
  comments : List PrismaComment
  messages : List MessageRec
  notifications : List NotificationRec
  nextId : Nat
deriving Repr, DecidableEq

/-- JavaScript truthiness of a nullable/optional string: `undefined`,
`null` and `""` are falsy. -/
def optTruthy : Option String → Bool
  | none => false
  | some s => decide (s ≠ "")

/-- `x || null` on a nullable/optional string. -/
def orNull (o : Option String) : Option String :=
  if optTruthy o then o else none

/-- `x || d` on an optional string with a string default
(`targetRole || 'STUDENT'`). -/
def orDefault (o : Option String) (d : String) : String :=
  match o with
  | some s => if s = "" then d else s
  | none => d

/-- `recipientIds && recipientIds.length > 0`. -/
def recipientIdsTruthy : Option (List String) → Bool
  | none => false
  | some l => decide (l.length > 0)

/-- The prisma `where` filter on `branch` built by `sendMessage`:
`noFilter` means the key is absent; `filterEq b` is `{ branch: b }`
(`filterEq none` matches rows whose branch is NULL, as prisma's
`{ branch: null }` does). -/
inductive BranchFilter where
  | noFilter
  | filterEq (b : Option String)
deriving Repr, DecidableEq

def matchesBranch : BranchFilter → Option String → Bool
  | .noFilter, _ => true
  | .filterEq b, ub => decide (ub = b)

/-- The recipient-resolution block of `sendMessage`
(`message.controller.ts` lines 41–70): non-empty explicit `recipientIds`
keep the default INDIVIDUAL type and become the recipients verbatim;
otherwise a supplied `targetRole` makes a GROUP message targeting all
users with that role, branch-filtered by the explicit `targetBranch` when
given, unfiltered for an OFFICIAL sender, and filtered to the sender's own
branch for a TEACHER sender. The user table is scanned in stored order
(`prisma.user.findMany`) and projected to ids. -/
def resolveRecipients (user : UserRec) (users : List UserRec)
    (targetRole targetBranch : Option String)
    (recipientIds : Option (List String)) : String × List String :=
  if recipientIdsTruthy recipientIds then
    ("INDIVIDUAL", recipientIds.getD [])
  else
    match targetRole with
    | some tr =>
      if decide (tr ≠ "") then
        let branchFilter : BranchFilter :=
          if optTruthy targetBranch then .filterEq targetBranch
          else if user.role = "OFFICIAL" then .noFilter
          else if user.role = "TEACHER" then .filterEq user.branch
          else .noFilter
        ("GROUP", (users.filter (fun u =>
          decide (u.role = tr) && matchesBranch branchFilter u.branch)).map (fun u => u.id))
      else
        ("INDIVIDUAL", [])
    | none => ("INDIVIDUAL", [])

/-- Validation performed by `sendMessageSchema` (zod): non-empty `content`
and, when present, `targetRole` one of STUDENT / TEACHER. -/
def sendMessageValid (content : String) (targetRole : Option String) : Bool :=
  decide (content.length ≥ 1) &&
    (match targetRole with
     | none => true
     | some r => decide (r = "STUDENT") || decide (r = "TEACHER"))

/-- The error responses of `sendMessage` before any store write:
400 validation, 403 permission. -/
inductive SendError where
  | validation
  | permission
deriving Repr, DecidableEq

/-- The `sendMessage` handler (`message.controller.ts` 15–104) with every
store call succeeding: validate the body, gate through
`validateMessagePermissions` with `targetRole || 'STUDENT'` and
`targetBranch || null`, resolve recipients, insert the message row (empty
recipient relation, `targetRole/targetBranch` stored as
`value || undefined`), then — when recipients were resolved — connect them
in a second update. -/
def sendMessage (db : AppDB) (user : UserRec) (content : String)
    (targetRole targetBranch : Option String)
    (recipientIds : Option (List String)) : Except SendError AppDB :=
  if sendMessageValid content targetRole then
    if validateMessagePermissions user (orDefault targetRole "STUDENT") (orNull targetBranch) then
      let res := resolveRecipients user db.users targetRole targetBranch recipientIds
      let msg : MessageRec :=
        ⟨db.nextId, user.id, content, res.1, orNull targetRole, orNull targetBranch, [], false⟩
      let db1 : AppDB := { db with messages := db.messages ++ [msg], nextId := db.nextId + 1 }
      if res.2.length > 0 then
        .ok { db1 with messages := db1.messages.map (fun m =>
          if m.id = msg.id then { m with recipients := res.2 } else m) }
      else
        .ok db1
    else
      .error .permission
  else
    .error .validation

/-- `sendMessage` under the store-failure model: the resolution and gate as
above, then write 1 (`prisma.message.create`) and, for non-empty
resolutions, write 2 (`prisma.message.update` with `connect`). `fuel` store
writes succeed; the next raises, the catch answers 500, and earlier writes
persist. Returns the resulting store and whether the handler succeeded. -/
def sendMessageRun (db : AppDB) (user : UserRec) (content : String)
    (targetRole targetBranch : Option String)
    (recipientIds : Option (List String)) (fuel : Nat) : AppDB × Bool :=
  if sendMessageValid content targetRole then
    if validateMessagePermissions user (orDefault targetRole "STUDENT") (orNull targetBranch) then
      let res := resolveRecipients user db.users targetRole targetBranch recipientIds
      if fuel = 0 then (db, false)
      else
        let msg : MessageRec :=
          ⟨db.nextId, user.id, content, res.1, orNull targetRole, orNull targetBranch, [], false⟩
        let db1 : AppDB := { db with messages := db.messages ++ [msg], nextId := db.nextId + 1 }
        if res.2.length > 0 then
          if fuel = 1 then (db1, false)
          else
            ({ db1 with messages := db1.messages.map (fun m =>
              if m.id = msg.id then { m with recipients := res.2 } else m) }, true)
        else
          (db1, true)
    else (db, false)
  else (db, false)

/-- The raw `prisma.notification.create` inside `createNotification`;
`writeOk` says whether the store accepts the write (`false` makes the
promise reject). -/
def notificationCreateWrite (db : AppDB) (userId ty referenceId content : String)
    (writeOk : Bool) : Except String AppDB :=
  if writeOk then
    .ok { db with
      notifications := db.notifications ++
        [⟨db.nextId, userId, ty, referenceId, content, false⟩],
      nextId := db.nextId + 1 }
  else
    .error "Create notification error"

/-- `createNotification` (`notification.controller.ts` 133–151): the write
is wrapped in try/catch; an error is logged and swallowed, so the function
always returns normally with the store exactly as the failed write left
it. -/
def createNotification (db : AppDB) (userId ty referenceId content : String)
    (writeOk : Bool) : AppDB :=
  match notificationCreateWrite db userId ty referenceId content writeOk with
  | .ok db' => db'
  | .error _ => db

/-- `prisma.post.findUnique({ where: { id } })`. -/
def findPost (posts : List PrismaPost) (i : Nat) : Option PrismaPost :=
  posts.find? (fun p => decide (p.id = i))

/-- `prisma.comment.findUnique({ where: { id } })`. -/
def findComment (comments : List PrismaComment) (i : Nat) : Option PrismaComment :=
  comments.find? (fun c => decide (c.id = i))

/-- The single `prisma.post.update` of the `likePost` handler
(`post.controller.ts` 350–403): `hasLiked` is computed from the fetched
row; `likes` uses the atomic increment/decrement and `likedBy` the
set/push, both in one update. -/
def likePostUpdate (post : PrismaPost) (userId : String) : PrismaPost :=
  if decide (userId ∈ post.likedBy) then
    { post with likes := post.likes - 1,
                likedBy := post.likedBy.filter (fun uid => decide (uid ≠ userId)) }
  else
    { post with likes := post.likes + 1, likedBy := post.likedBy ++ [userId] }

/-- The `likePost` handler under the store-failure model: fetch, then a
single update write. -/
def likePostRun (db : AppDB) (user : UserRec) (postId : Nat) (fuel : Nat) :
    AppDB × Bool :=
  match findPost db.posts postId with
  | none => (db, false)
  | some post =>
    if fuel = 0 then (db, false)
    else
      ({ db with posts := db.posts.map (fun p =>
        if p.id = postId then likePostUpdate post user.id else p) }, true)

/-- The `createComment` handler (`post.controller.ts` 410–478) under the
store-failure model: validate, fetch the post, write 1 inserts the comment
row, write 2 increments the parent's `commentCount` in a separate
update. -/
def createCommentRun (db : AppDB) (user : UserRec) (postId : Nat)
    (content : String) (fuel : Nat) : AppDB × Bool :=
  if decide (content.length ≥ 1) then
    match findPost db.posts postId with
    | none => (db, false)
    | some _ =>
      if fuel = 0 then (db, false)
      else
        let db1 : AppDB := { db with
          comments := db.comments ++ [⟨db.nextId, postId, user.id, content, 0, []⟩],
          nextId := db.nextId + 1 }
        if fuel = 1 then (db1, false)
        else
          ({ db1 with posts := db1.posts.map (fun p =>
            if p.id = postId then { p with commentCount := p.commentCount + 1 } else p) },
           true)
  else (db, false)

/-- The `deleteComment` handler (`post.controller.ts` 618–665) under the
store-failure model: fetch the comment, check ownership, write 1 deletes
the row, write 2 decrements the parent's `commentCount` (plain
`{ decrement: 1 }`, no floor) in a separate update. -/
def deleteCommentRun (db : AppDB) (user : UserRec) (commentId : Nat)
    (fuel : Nat) : AppDB × Bool :=
  match findComment db.comments commentId with
  | none => (db, false)
  | some comment =>
    if decide (comment.authorId ≠ user.id) then (db, false)
    else if fuel = 0 then (db, false)
    else
      let db1 : AppDB := { db with
        comments := db.comments.filter (fun c => decide (c.id ≠ commentId)) }
      if fuel = 1 then (db1, false)
      else
        ({ db1 with posts := db1.posts.map (fun p =>
          if p.id = comment.postId then { p with commentCount := p.commentCount - 1 }
          else p) }, true)

/-! ## Conversation assembly (`getConversation`, schema.ts 155–181) -/

/-- A `messages` table document (schema.ts lines 6–16). -/
structure ConvMsg where
  senderId : String
  content : String
  targetRole : Option String
  targetBranch : Option String
  recipientIds : List String
  isRead : Bool
  timestamp : Int
deriving Repr, DecidableEq

/-- Ascending-timestamp comparison, the JavaScript comparator
`(a, b) => a.timestamp - b.timestamp`. -/
def tsLE (a b : ConvMsg) : Prop := a.timestamp ≤ b.timestamp

instance : DecidableRel tsLE := fun a b =>
  inferInstanceAs (Decidable (a.timestamp ≤ b.timestamp))

instance : IsTotal ConvMsg tsLE := ⟨fun a b => Int.le_total a.timestamp b.timestamp⟩

instance : IsTrans ConvMsg tsLE := ⟨fun _ _ _ h1 h2 => le_trans h1 h2⟩

/-- One direction of the conversation query: messages whose `senderId` is
`sender` and whose `recipientIds` reach `recipient` (the membership reading
of the `recipientIds` equality filter, as the `by_recipient` index is used
elsewhere). `collect()` returns them in insertion order. -/
def directionFilter (msgs : List ConvMsg) (sender recipient : String) :
    List ConvMsg :=
  msgs.filter (fun m => decide (m.senderId = sender) &&
    decide (recipient ∈ m.recipientIds))

/-- `getConversation` (schema.ts 155–181): collect the user1→user2
messages, then the user2→user1 messages, concatenate in that order and
sort by `timestamp` with JavaScript's stable `Array.prototype.sort`
(modelled by the stable `List.insertionSort`). -/
def getConversation (msgs : List ConvMsg) (user1Id user2Id : String) :
    List ConvMsg :=
  List.insertionSort tsLE
    (directionFilter msgs user1Id user2Id ++ directionFilter msgs user2Id user1Id)

/-- Strict ascending-timestamp comparison, used to pin down the sorted
order when all timestamps are distinct. -/
def tsLT (a b : ConvMsg) : Prop := a.timestamp < b.timestamp

instance : DecidableRel tsLT := fun a b =>
  inferInstanceAs (Decidable (a.timestamp < b.timestamp))

instance : IsAntisymm ConvMsg tsLT :=
  ⟨fun _ _ h1 h2 => absurd h2 (lt_asymm h1)⟩

/-! ## Concrete data for witnesses and counterexamples -/

/-- A seed-style user table: one official, a CSE and an IT teacher, three
IT students and one CSE student. -/
def demoUsers : List UserRec :=
  [⟨"o1", "OFFICIAL", none⟩, ⟨"t1", "TEACHER", some "CSE"⟩,
   ⟨"t2", "TEACHER", some "IT"⟩, ⟨"s1", "STUDENT", some "IT"⟩,
   ⟨"s2", "STUDENT", some "IT"⟩, ⟨"s3", "STUDENT", some "IT"⟩,
   ⟨"s4", "STUDENT", some "CSE"⟩]

/-- A concrete relational store: the demo users and one post by the
official, nothing else. -/
def demoAppDB : AppDB :=
  ⟨demoUsers, [⟨0, "o1", "p", none, none, 0, [], 0⟩], [], [], [], 1⟩

/-- The B→A member of a timestamp tie, inserted first. -/
def tieMsgBA : ConvMsg := ⟨"B", "first", none, none, ["A"], false, 5⟩

/-- The A→B member of a timestamp tie, inserted second. -/
def tieMsgAB : ConvMsg := ⟨"A", "second", none, none, ["B"], false, 5⟩

/-! ## Theorems -/

/-- C1: `validateMessagePermissions` (the spec's `canSend`) permits every
send for an OFFICIAL sender; for a TEACHER sender it permits exactly
`targetRole = STUDENT` with `targetBranch` equal to the sender's branch;
for a STUDENT sender it permits exactly `targetRole = STUDENT` (any
branch); and it denies every sender whose role is none of the three. -/
theorem canSend_role_cases :
    (∀ (s : UserRec) (tr : String) (tb : Option String),
      s.role = "OFFICIAL" → validateMessagePermissions s tr tb = true) ∧
    (∀ (s : UserRec) (tr : String) (tb : Option String),
      s.role = "TEACHER" →
        (validateMessagePermissions s tr tb = true ↔
          tr = "STUDENT" ∧ tb = s.branch)) ∧
    (∀ (s : UserRec) (tr : String) (tb : Option String),
      s.role = "STUDENT" →
        (validateMessagePermissions s tr tb = true ↔ tr = "STUDENT")) ∧
    (∀ (s : UserRec) (tr : String) (tb : Option String),
      s.role ≠ "OFFICIAL" → s.role ≠ "TEACHER" → s.role ≠ "STUDENT" →
        validateMessagePermissions s tr tb = false) := by
  refine ⟨?_, ?_, ?_, ?_⟩
  · intro s tr tb h
    simp [validateMessagePermissions, h]
  · intro s tr tb h
    have hne : s.role ≠ "OFFICIAL" := by
      rw [h]; decide
    simp [validateMessagePermissions, h, hne]
  · intro s tr tb h
    have hne : s.role ≠ "OFFICIAL" := by
      rw [h]; decide
    have hne2 : s.role ≠ "TEACHER" := by
      rw [h]; decide
    simp [validateMessagePermissions, h, hne, hne2]
  · intro s tr tb h1 h2 h3
    simp [validateMessagePermissions, h1, h2, h3]

/-- Witness for C1: concrete evaluations obtained by applying
`canSend_role_cases` — an official messaging teachers of another branch, a
CSE teacher messaging CSE students, a student messaging students across
branches, and an unknown role being denied. -/
theorem canSend_role_cases_witness :
    validateMessagePermissions ⟨"o1", "OFFICIAL", none⟩ "TEACHER" (some "IT") = true ∧
    validateMessagePermissions ⟨"t1", "TEACHER", some "CSE"⟩ "STUDENT" (some "CSE") = true ∧
    validateMessagePermissions ⟨"s1", "STUDENT", some "IT"⟩ "STUDENT" (some "CSE") = true ∧
    validateMessagePermissions ⟨"x1", "ADMIN", none⟩ "STUDENT" none = false := by
  refine ⟨?_, ?_, ?_, ?_⟩
  · exact canSend_role_cases.1 ⟨"o1", "OFFICIAL", none⟩ "TEACHER" (some "IT") rfl
  · exact (canSend_role_cases.2.1 ⟨"t1", "TEACHER", some "CSE"⟩ "STUDENT" (some "CSE") rfl).mpr
      ⟨rfl, rfl⟩
  · exact (canSend_role_cases.2.2.1 ⟨"s1", "STUDENT", some "IT"⟩ "STUDENT" (some "CSE") rfl).mpr
      rfl
  · exact canSend_role_cases.2.2.2 ⟨"x1", "ADMIN", none⟩ "STUDENT" none
      (by decide) (by decide) (by decide)

/-! ### Table lemmas -/

theorem dbGet_mem {α : Type} {tbl : List (Nat × α)} {i : Nat} {a : α}
    (h : dbGet tbl i = some a) : (i, a) ∈ tbl := by
  induction tbl with
  | nil => simp [dbGet] at h
  | cons hd tl ih =>
    obtain ⟨j, b⟩ := hd
    by_cases hj : j = i
    · subst hj
      simp [dbGet] at h
      subst h
      exact List.mem_cons_self _ _
    · simp [dbGet, hj] at h
      exact List.mem_cons_of_mem _ (ih h)

theorem mem_dbPatch {α : Type} {tbl : List (Nat × α)} {i : Nat} {f : α → α}
    {e : Nat × α} (h : e ∈ dbPatch tbl i f) :
    e ∈ tbl ∨ ∃ a, (e.1, a) ∈ tbl ∧ e.2 = f a := by
  induction tbl with
  | nil => simp [dbPatch] at h
  | cons hd tl ih =>
    obtain ⟨j, b⟩ := hd
    by_cases hj : j = i
    · subst hj
      simp only [dbPatch, if_pos rfl] at h
      rcases List.mem_cons.mp h with h1 | h1
      · subst h1
        exact Or.inr ⟨b, List.mem_cons_self _ _, rfl⟩
      · exact Or.inl (List.mem_cons_of_mem _ h1)
    · simp only [dbPatch, if_neg hj] at h
      rcases List.mem_cons.mp h with h1 | h1
      · exact Or.inl (h1 ▸ List.mem_cons_self _ _)
      · rcases ih h1 with h2 | ⟨a, ha, he⟩
        · exact Or.inl (List.mem_cons_of_mem _ h2)
        · exact Or.inr ⟨a, List.mem_cons_of_mem _ ha, he⟩

theorem mem_dbDelete {α : Type} {tbl : List (Nat × α)} {i : Nat}
    {e : Nat × α} (h : e ∈ dbDelete tbl i) : e ∈ tbl := by
  induction tbl with
  | nil => simp [dbDelete] at h
  | cons hd tl ih =>
    obtain ⟨j, b⟩ := hd
    by_cases hj : j = i
    · simp only [dbDelete, if_pos hj] at h
      exact List.mem_cons_of_mem _ h
    · simp only [dbDelete, if_neg hj] at h
      rcases List.mem_cons.mp h with h1 | h1
      · exact h1 ▸ List.mem_cons_self _ _
      · exact List.mem_cons_of_mem _ (ih h1)

/-! ### Toggle arithmetic -/

theorem length_filter_ne_add_one {l : List String} {u : String}
    (hn : l.Nodup) (hm : u ∈ l) :
    (l.filter (fun uid => decide (uid ≠ u))).length + 1 = l.length := by
  induction l with
  | nil => cases hm
  | cons x xs ih =>
    rcases List.nodup_cons.mp hn with ⟨hx, hxs⟩
    by_cases hxu : x = u
    · subst hxu
      have hfilter : xs.filter (fun uid => decide (uid ≠ x)) = xs :=
        List.filter_eq_self.mpr (fun a ha => decide_eq_true (fun hax => hx (hax ▸ ha)))
      rw [List.filter_cons, if_neg (by simp), hfilter]
      rfl
    · rcases List.mem_cons.mp hm with h1 | h1
      · exact absurd h1.symm hxu
      · have hlen := ih hxs h1
        rw [List.filter_cons, if_pos (decide_eq_true hxu)]
        simp only [List.length_cons]
        omega

theorem nodup_append_singleton {l : List String} {u : String}
    (hn : l.Nodup) (hm : u ∉ l) : (l ++ [u]).Nodup := by
  refine List.Nodup.append hn (List.nodup_singleton u) ?_
  intro a ha hb
  rcases List.mem_singleton.mp hb with rfl
  exact hm ha

/-- Removing a present user from a deduplicated `likedBy` list keeps the
counter in sync after the decrement. -/
theorem toggle_remove_inv {likes : Int} {l : List String} {u : String}
    (hlikes : likes = (l.length : Int)) (hnodup : l.Nodup) (hmem : u ∈ l) :
    likes - 1 = ((l.filter (fun uid => decide (uid ≠ u))).length : Int) ∧
      (l.filter (fun uid => decide (uid ≠ u))).Nodup := by
  have hlen := length_filter_ne_add_one hnodup hmem
  exact ⟨by omega, List.Nodup.filter _ hnodup⟩

/-- Appending an absent user to a deduplicated `likedBy` list keeps the
counter in sync after the increment. -/
theorem toggle_add_inv {likes : Int} {l : List String} {u : String}
    (hlikes : likes = (l.length : Int)) (hnodup : l.Nodup) (hmem : u ∉ l) :
    likes + 1 = ((l ++ [u]).length : Int) ∧ (l ++ [u]).Nodup := by
  refine ⟨?_, nodup_append_singleton hnodup hmem⟩
  simp only [List.length_append, List.length_singleton]
  omega

/-! ### C2: the likes counter always equals the size of the likedBy set -/

theorem likesInv_applyConvexOp {db : ConvexDB} (h : likesInv db) (op : ConvexOp) :
    likesInv (applyConvexOp db op) := by
  obtain ⟨hp, hc⟩ := h
  cases op with
  | createPost a c mu mt ts =>
    refine ⟨?_, hc⟩
    intro e he
    rcases List.mem_append.mp he with h1 | h1
    · exact hp e h1
    · rcases List.mem_singleton.mp h1 with rfl
      exact ⟨rfl, List.nodup_nil⟩
  | createComment pid a c ts =>
    have hnew : ∀ e ∈ db.comments ++ [(db.nextId, (⟨pid, a, c, 0, [], ts⟩ : CommentDoc))],
        e.2.likes = (e.2.likedBy.length : Int) ∧ e.2.likedBy.Nodup := by
      intro e he
      rcases List.mem_append.mp he with h1 | h1
      · exact hc e h1
      · rcases List.mem_singleton.mp h1 with rfl
        exact ⟨rfl, List.nodup_nil⟩
    cases hget : dbGet db.posts pid with
    | some post =>
      have heq : applyConvexOp db (ConvexOp.createComment pid a c ts) =
          ⟨dbPatch db.posts pid (fun p => { p with commentCount := post.commentCount + 1 }),
           db.comments ++ [(db.nextId, ⟨pid, a, c, 0, [], ts⟩)], db.nextId + 1⟩ := by
        simp only [applyConvexOp, Convex.createComment, hget]
      rw [heq]
      refine ⟨?_, hnew⟩
      intro e he
      rcases mem_dbPatch he with h1 | ⟨b, hb, he2⟩
      · exact hp e h1
      · have hb2 := hp (e.1, b) hb
        rw [he2]
        exact hb2
    | none =>
      have heq : applyConvexOp db (ConvexOp.createComment pid a c ts) =
          ⟨db.posts, db.comments ++ [(db.nextId, ⟨pid, a, c, 0, [], ts⟩)], db.nextId + 1⟩ := by
        simp only [applyConvexOp, Convex.createComment, hget]
      rw [heq]
      exact ⟨hp, hnew⟩
  | likePost pid u =>
    cases hget : dbGet db.posts pid with
    | none =>
      have heq : applyConvexOp db (ConvexOp.likePost pid u) = db := by
        simp only [applyConvexOp, Convex.likePost, hget]
      rw [heq]
      exact ⟨hp, hc⟩
    | some post =>
      obtain ⟨hlikes, hnodup⟩ := hp (pid, post) (dbGet_mem hget)
      by_cases hmem : u ∈ post.likedBy
      · have heq : applyConvexOp db (ConvexOp.likePost pid u) =
            ⟨dbPatch db.posts pid (fun p =>
              { p with likes := post.likes - 1,
                       likedBy := post.likedBy.filter (fun uid => decide (uid ≠ u)) }),
             db.comments, db.nextId⟩ := by
          simp only [applyConvexOp, Convex.likePost, hget, hmem, decide_eq_true_eq, if_true,
            decide_eq_true]
        rw [heq]
        refine ⟨?_, hc⟩
        intro e he
        rcases mem_dbPatch he with h1 | ⟨b, hb, he2⟩
        · exact hp e h1
        · rw [he2]
          exact toggle_remove_inv hlikes hnodup hmem
      · have heq : applyConvexOp db (ConvexOp.likePost pid u) =
            ⟨dbPatch db.posts pid (fun p =>
              { p with likes := post.likes + 1, likedBy := post.likedBy ++ [u] }),
             db.comments, db.nextId⟩ := by
          simp only [applyConvexOp, Convex.likePost, hget]
          rw [if_neg (by simp [hmem])]
        rw [heq]
        refine ⟨?_, hc⟩
        intro e he
        rcases mem_dbPatch he with h1 | ⟨b, hb, he2⟩
        · exact hp e h1
        · rw [he2]
          exact toggle_add_inv hlikes hnodup hmem
  | likeComment cid u =>
    cases hget : dbGet db.comments cid with
    | none =>
      have heq : applyConvexOp db (ConvexOp.likeComment cid u) = db := by
        simp only [applyConvexOp, Convex.likeComment, hget]
      rw [heq]
      exact ⟨hp, hc⟩
    | some comment =>
      obtain ⟨hlikes, hnodup⟩ := hc (cid, comment) (dbGet_mem hget)
      by_cases hmem : u ∈ comment.likedBy
      · have heq : applyConvexOp db (ConvexOp.likeComment cid u) =
            ⟨db.posts,
             dbPatch db.comments cid (fun c =>
              { c with likes := comment.likes - 1,
                       likedBy := comment.likedBy.filter (fun uid => decide (uid ≠ u)) }),
             db.nextId⟩ := by
          simp only [applyConvexOp, Convex.likeComment, hget]
          rw [if_pos (decide_eq_true hmem)]
        rw [heq]
        refine ⟨hp, ?_⟩
        intro e he
        rcases mem_dbPatch he with h1 | ⟨b, hb, he2⟩
        · exact hc e h1
        · rw [he2]
          exact toggle_remove_inv hlikes hnodup hmem
      · have heq : applyConvexOp db (ConvexOp.likeComment cid u) =
            ⟨db.posts,
             dbPatch db.comments cid (fun c =>
              { c with likes := comment.likes + 1, likedBy := comment.likedBy ++ [u] }),
             db.nextId⟩ := by
          simp only [applyConvexOp, Convex.likeComment, hget]
          rw [if_neg (by simp [hmem])]
        rw [heq]
        refine ⟨hp, ?_⟩
        intro e he
        rcases mem_dbPatch he with h1 | ⟨b, hb, he2⟩
        · exact hc e h1
        · rw [he2]
          exact toggle_add_inv hlikes hnodup hmem
  | deleteComment cid u =>
    cases hget : dbGet db.comments cid with
    | none =>
      have heq : applyConvexOp db (ConvexOp.deleteComment cid u) = db := by
        simp only [applyConvexOp, Convex.deleteComment, hget]
      rw [heq]
      exact ⟨hp, hc⟩
    | some comment =>
      by_cases hauth : comment.authorId = u
      · cases hgetp : dbGet db.posts comment.postId with
        | some post =>
          have heq : applyConvexOp db (ConvexOp.deleteComment cid u) =
              ⟨dbPatch db.posts comment.postId (fun p =>
                { p with commentCount := max 0 (post.commentCount - 1) }),
               dbDelete db.comments cid, db.nextId⟩ := by
            simp only [applyConvexOp, Convex.deleteComment, hget]
            rw [if_neg (by simp [hauth])]
            simp only [hgetp]
          rw [heq]
          constructor
          · intro e he
            rcases mem_dbPatch he with h1 | ⟨b, hb, he2⟩
            · exact hp e h1
            · have hb2 := hp (e.1, b) hb
              rw [he2]
              exact hb2
          · intro e he
            exact hc e (mem_dbDelete he)
        | none =>
          have heq : applyConvexOp db (ConvexOp.deleteComment cid u) =
              ⟨db.posts, dbDelete db.comments cid, db.nextId⟩ := by
            simp only [applyConvexOp, Convex.deleteComment, hget]
            rw [if_neg (by simp [hauth])]
            simp only [hgetp]
          rw [heq]
          exact ⟨hp, fun e he => hc e (mem_dbDelete he)⟩
      · have heq : applyConvexOp db (ConvexOp.deleteComment cid u) = db := by
          simp only [applyConvexOp, Convex.deleteComment, hget]
          rw [if_pos (decide_eq_true hauth)]
        rw [heq]
        exact ⟨hp, hc⟩

theorem dbGet_dbPatch_self {α : Type} {tbl : List (Nat × α)} {i : Nat}
    {f : α → α} {a : α} (h : dbGet tbl i = some a) :
    dbGet (dbPatch tbl i f) i = some (f a) := by
  induction tbl with
  | nil => simp [dbGet] at h
  | cons hd tl ih =>
    obtain ⟨j, b⟩ := hd
    by_cases hj : j = i
    · subst hj
      simp [dbGet] at h
      subst h
      simp [dbPatch, dbGet]
    · simp [dbGet, hj] at h
      simp [dbPatch, dbGet, hj]
      exact ih h

theorem likesInv_runConvex {db : ConvexDB} (h : likesInv db) (ops : List ConvexOp) :
    likesInv (runConvex db ops) := by
  induction ops generalizing db with
  | nil => exact h
  | cons op rest ih => exact ih (likesInv_applyConvexOp h op)

/-- C2: in every store reachable from the empty store by the public
engagement operations (create post, create comment, like/unlike toggles on
posts and comments, comment deletion), every post and every comment
satisfies `likes = |likedBy|`: the stored counter equals the number of
distinct user ids in its `likedBy` set. -/
theorem reachable_likes_eq_likedBy_card (ops : List ConvexOp) :
    likesInv (runConvex emptyConvexDB ops) :=
  likesInv_runConvex (by exact ⟨by simp [emptyConvexDB], by simp [emptyConvexDB]⟩) ops

/-- Witness for C2: the invariant instantiated on the store produced by
`demoEngOps`, at the concrete post document it contains. -/
theorem reachable_likes_eq_likedBy_card_witness :
    (⟨"a", "p", none, none, 1, ["u1"], 1, 0⟩ : PostDoc).likes =
      (((⟨"a", "p", none, none, 1, ["u1"], 1, 0⟩ : PostDoc).likedBy.length : Int)) ∧
    (⟨"a", "p", none, none, 1, ["u1"], 1, 0⟩ : PostDoc).likedBy.Nodup :=
  (reachable_likes_eq_likedBy_card demoEngOps).1
    (0, ⟨"a", "p", none, none, 1, ["u1"], 1, 0⟩) (by decide)

/-- C3: the like toggle alternates deterministically per user. Applying
the toggle twice for the same user to a fresh post returns it to
`likes = 0, likedBy = []`; applying it for two distinct users yields
`likes = 2, likedBy = [u1, u2]`; and on both the convex `likePost` /
`likeComment` mutations and the Prisma `likePost` update, a member is
removed with a decrement and a non-member is added with an increment, so a
user can never like again without an intervening unlike. -/
theorem toggleLike_alternation :
    (∀ (a c : String) (mu mt : Option String) (ts : Nat) (u1 : String),
      dbGet (runConvex emptyConvexDB
        [.createPost a c mu mt ts, .likePost 0 u1, .likePost 0 u1]).posts 0 =
        some ⟨a, c, mu, mt, 0, [], 0, ts⟩) ∧
    (∀ (a c : String) (mu mt : Option String) (ts : Nat) (u1 u2 : String), u1 ≠ u2 →
      dbGet (runConvex emptyConvexDB
        [.createPost a c mu mt ts, .likePost 0 u1, .likePost 0 u2]).posts 0 =
        some ⟨a, c, mu, mt, 2, [u1, u2], 0, ts⟩) ∧
    (∀ (db : ConvexDB) (pid : Nat) (u : String) (db' : ConvexDB) (p : PostDoc),
      Convex.likePost db pid u = Except.ok db' → dbGet db.posts pid = some p →
      ((u ∈ p.likedBy → ∃ q, dbGet db'.posts pid = some q ∧ q.likes = p.likes - 1 ∧
          q.likedBy = p.likedBy.filter (fun uid => decide (uid ≠ u)) ∧ u ∉ q.likedBy) ∧
       (u ∉ p.likedBy → ∃ q, dbGet db'.posts pid = some q ∧ q.likes = p.likes + 1 ∧
          q.likedBy = p.likedBy ++ [u] ∧ u ∈ q.likedBy))) ∧
    (∀ (db : ConvexDB) (cid : Nat) (u : String) (db' : ConvexDB) (c : CommentDoc),
      Convex.likeComment db cid u = Except.ok db' → dbGet db.comments cid = some c →
      ((u ∈ c.likedBy → ∃ q, dbGet db'.comments cid = some q ∧ q.likes = c.likes - 1 ∧
          q.likedBy = c.likedBy.filter (fun uid => decide (uid ≠ u)) ∧ u ∉ q.likedBy) ∧
       (u ∉ c.likedBy → ∃ q, dbGet db'.comments cid = some q ∧ q.likes = c.likes + 1 ∧
          q.likedBy = c.likedBy ++ [u] ∧ u ∈ q.likedBy))) ∧
    (∀ (post : PrismaPost) (u : String),
      (u ∈ post.likedBy → (likePostUpdate post u).likes = post.likes - 1 ∧
        (likePostUpdate post u).likedBy =
          post.likedBy.filter (fun uid => decide (uid ≠ u)) ∧
        u ∉ (likePostUpdate post u).likedBy) ∧
      (u ∉ post.likedBy → (likePostUpdate post u).likes = post.likes + 1 ∧
        (likePostUpdate post u).likedBy = post.likedBy ++ [u] ∧
        u ∈ (likePostUpdate post u).likedBy)) := by
  refine ⟨?_, ?_, ?_, ?_, ?_⟩
  · intro a c mu mt ts u1
    simp [runConvex, applyConvexOp, Convex.createPost, Convex.likePost,
      emptyConvexDB, dbGet, dbPatch]
  · intro a c mu mt ts u1 u2 h
    simp [runConvex, applyConvexOp, Convex.createPost, Convex.likePost,
      emptyConvexDB, dbGet, dbPatch, h, Ne.symm h]
  · intro db pid u db' p hok hget
    constructor
    · intro hmem
      rw [Convex.likePost, hget] at hok
      simp only [decide_eq_true hmem, if_true] at hok
      injection hok with h
      subst h
      refine ⟨_, dbGet_dbPatch_self hget, rfl, rfl, ?_⟩
      simp [List.mem_filter]
    · intro hmem
      rw [Convex.likePost, hget] at hok
      simp only [decide_eq_false hmem, Bool.false_eq_true, if_false] at hok
      injection hok with h
      subst h
      refine ⟨_, dbGet_dbPatch_self hget, rfl, rfl, ?_⟩
      simp
  · intro db cid u db' c hok hget
    constructor
    · intro hmem
      rw [Convex.likeComment, hget] at hok
      simp only [decide_eq_true hmem, if_true] at hok
      injection hok with h
      subst h
      refine ⟨_, dbGet_dbPatch_self hget, rfl, rfl, ?_⟩
      simp [List.mem_filter]
    · intro hmem
      rw [Convex.likeComment, hget] at hok
      simp only [decide_eq_false hmem, Bool.false_eq_true, if_false] at hok
      injection hok with h
      subst h
      refine ⟨_, dbGet_dbPatch_self hget, rfl, rfl, ?_⟩
      simp
  · intro post u
    constructor
    · intro hmem
      rw [likePostUpdate, if_pos (decide_eq_true hmem)]
      refine ⟨rfl, rfl, ?_⟩
      simp [List.mem_filter]
    · intro hmem
      rw [likePostUpdate, if_neg (by simp [hmem])]
      refine ⟨rfl, rfl, ?_⟩
      simp

/-- Witness for C3: the double-toggle and distinct-user conclusions of
`toggleLike_alternation` evaluated at a concrete fresh post and users
"u1" ≠ "u2", plus the alternation conclusion of the Prisma update at a
concrete liked post. -/
theorem toggleLike_alternation_witness :
    dbGet (runConvex emptyConvexDB
      [.createPost "a" "hello" none none 7, .likePost 0 "u1", .likePost 0 "u1"]).posts 0 =
      some ⟨"a", "hello", none, none, 0, [], 0, 7⟩ ∧
    dbGet (runConvex emptyConvexDB
      [.createPost "a" "hello" none none 7, .likePost 0 "u1", .likePost 0 "u2"]).posts 0 =
      some ⟨"a", "hello", none, none, 2, ["u1", "u2"], 0, 7⟩ ∧
    ((likePostUpdate ⟨5, "a", "hello", none, none, 1, ["u1"], 0⟩ "u1").likes = 0 ∧
      (likePostUpdate ⟨5, "a", "hello", none, none, 1, ["u1"], 0⟩ "u1").likedBy = [] ∧
      "u1" ∉ (likePostUpdate ⟨5, "a", "hello", none, none, 1, ["u1"], 0⟩ "u1").likedBy) := by
  refine ⟨?_, ?_, ?_⟩
  · exact toggleLike_alternation.1 "a" "hello" none none 7 "u1"
  · exact toggleLike_alternation.2.1 "a" "hello" none none 7 "u1" "u2" (by decide)
  · have h := (toggleLike_alternation.2.2.2.2
      ⟨5, "a", "hello", none, none, 1, ["u1"], 0⟩ "u1").1 (by decide)
    refine ⟨by rw [h.1]; decide, by rw [h.2.1]; decide, h.2.2⟩

/-- C4: creating a comment increments the parent post's `commentCount` by
exactly one; deleting a comment sets it to `max 0 (commentCount - 1)`, the
decrement floored at zero; and from any store whose counts are all
non-negative — including desynchronized states where a simulated race has
left more live comments than recorded counts, so that deletions decrement
more often than the counter can absorb — every sequence of operations
keeps every post's `commentCount` non-negative. -/
theorem commentCount_floor :
    (∀ (db : ConvexDB) (pid : Nat) (a c : String) (ts : Nat) (p : PostDoc),
      dbGet db.posts pid = some p →
      dbGet (Convex.createComment db pid a c ts).posts pid =
        some { p with commentCount := p.commentCount + 1 }) ∧
    (∀ (db : ConvexDB) (cid : Nat) (uid : String) (db' : ConvexDB)
        (c : CommentDoc) (p : PostDoc),
      Convex.deleteComment db cid uid = Except.ok db' →
      dbGet db.comments cid = some c → dbGet db.posts c.postId = some p →
      dbGet db'.posts c.postId =
        some { p with commentCount := max 0 (p.commentCount - 1) }) ∧
    (∀ (db : ConvexDB), countInv db → ∀ (ops : List ConvexOp),
      countInv (runConvex db ops)) := by
  refine ⟨?_, ?_, ?_⟩
  · intro db pid a c ts p hget
    show dbGet (Convex.createComment db pid a c ts).posts pid = _
    rw [Convex.createComment]
    simp only [hget]
    exact dbGet_dbPatch_self hget
  · intro db cid uid db' c p hok hgetc hgetp
    rw [Convex.deleteComment, hgetc] at hok
    have hauth : ¬ (c.authorId ≠ uid) := by
      intro hne
      simp only [decide_eq_true hne, if_true] at hok
      cases hok
    simp only [decide_eq_false hauth, Bool.false_eq_true, if_false] at hok
    simp only [hgetp] at hok
    injection hok with h
    subst h
    exact dbGet_dbPatch_self hgetp
  · intro db hinv ops
    induction ops generalizing db with
    | nil => exact hinv
    | cons op rest ih =>
      show countInv (runConvex (applyConvexOp db op) rest)
      refine ih (applyConvexOp db op) ?_
      clear ih
      cases op with
      | createPost a c mu mt ts =>
        intro e he
        rcases List.mem_append.mp he with h1 | h1
        · exact hinv e h1
        · rcases List.mem_singleton.mp h1 with rfl
          exact le_refl 0
      | createComment pid a c ts =>
        cases hget : dbGet db.posts pid with
        | some post =>
          have heq : applyConvexOp db (ConvexOp.createComment pid a c ts) =
              ⟨dbPatch db.posts pid
                (fun p => { p with commentCount := post.commentCount + 1 }),
               db.comments ++ [(db.nextId, ⟨pid, a, c, 0, [], ts⟩)], db.nextId + 1⟩ := by
            simp only [applyConvexOp, Convex.createComment, hget]
          rw [heq]
          intro e he
          rcases mem_dbPatch he with h1 | ⟨b, hb, he2⟩
          · exact hinv e h1
          · have hpost : (0 : Int) ≤ post.commentCount :=
              hinv (pid, post) (dbGet_mem hget)
            rw [he2]
            show 0 ≤ post.commentCount + 1
            omega
        | none =>
          have heq : applyConvexOp db (ConvexOp.createComment pid a c ts) =
              ⟨db.posts, db.comments ++ [(db.nextId, ⟨pid, a, c, 0, [], ts⟩)],
               db.nextId + 1⟩ := by
            simp only [applyConvexOp, Convex.createComment, hget]
          rw [heq]
          intro e he
          exact hinv e he
      | likePost pid u =>
        cases hget : dbGet db.posts pid with
        | none =>
          have heq : applyConvexOp db (ConvexOp.likePost pid u) = db := by
            simp only [applyConvexOp, Convex.likePost, hget]
          rw [heq]
          exact hinv
        | some post =>
          by_cases hmem : u ∈ post.likedBy
          · have heq : applyConvexOp db (ConvexOp.likePost pid u) =
                ⟨dbPatch db.posts pid (fun p =>
                  { p with likes := post.likes - 1,
                           likedBy := post.likedBy.filter (fun uid => decide (uid ≠ u)) }),
                 db.comments, db.nextId⟩ := by
              simp only [applyConvexOp, Convex.likePost, hget]
              rw [if_pos (decide_eq_true hmem)]
            rw [heq]
            intro e he
            rcases mem_dbPatch he with h1 | ⟨b, hb, he2⟩
            · exact hinv e h1
            · have hb2 := hinv (e.1, b) hb
              rw [he2]
              exact hb2
          · have heq : applyConvexOp db (ConvexOp.likePost pid u) =
                ⟨dbPatch db.posts pid (fun p =>
                  { p with likes := post.likes + 1, likedBy := post.likedBy ++ [u] }),
                 db.comments, db.nextId⟩ := by
              simp only [applyConvexOp, Convex.likePost, hget]
              rw [if_neg (by simp [hmem])]
            rw [heq]
            intro e he
            rcases mem_dbPatch he with h1 | ⟨b, hb, he2⟩
            · exact hinv e h1
            · have hb2 := hinv (e.1, b) hb
              rw [he2]
              exact hb2
      | likeComment cid u =>
        cases hget : dbGet db.comments cid with
        | none =>
          have heq : applyConvexOp db (ConvexOp.likeComment cid u) = db := by
            simp only [applyConvexOp, Convex.likeComment, hget]
          rw [heq]
          exact hinv
        | some comment =>
          by_cases hmem : u ∈ comment.likedBy
          · have heq : applyConvexOp db (ConvexOp.likeComment cid u) =
                ⟨db.posts,
                 dbPatch db.comments cid (fun c =>
                  { c with likes := comment.likes - 1,
                           likedBy := comment.likedBy.filter (fun uid => decide (uid ≠ u)) }),
                 db.nextId⟩ := by
              simp only [applyConvexOp, Convex.likeComment, hget]
              rw [if_pos (decide_eq_true hmem)]
            rw [heq]
            intro e he
            exact hinv e he
          · have heq : applyConvexOp db (ConvexOp.likeComment cid u) =
                ⟨db.posts,
                 dbPatch db.comments cid (fun c =>
                  { c with likes := comment.likes + 1,
                           likedBy := comment.likedBy ++ [u] }),
                 db.nextId⟩ := by
              simp only [applyConvexOp, Convex.likeComment, hget]
              rw [if_neg (by simp [hmem])]
            rw [heq]
            intro e he
            exact hinv e he
      | deleteComment cid u =>
        cases hget : dbGet db.comments cid with
        | none =>
          have heq : applyConvexOp db (ConvexOp.deleteComment cid u) = db := by
            simp only [applyConvexOp, Convex.deleteComment, hget]
          rw [heq]
          exact hinv
        | some comment =>
          by_cases hauth : comment.authorId = u
          · cases hgetp : dbGet db.posts comment.postId with
            | some post =>
              have heq : applyConvexOp db (ConvexOp.deleteComment cid u) =
                  ⟨dbPatch db.posts comment.postId (fun p =>
                    { p with commentCount := max 0 (post.commentCount - 1) }),
                   dbDelete db.comments cid, db.nextId⟩ := by
                simp only [applyConvexOp, Convex.deleteComment, hget]
                rw [if_neg (by simp [hauth])]
                simp only [hgetp]
              rw [heq]
              intro e he
              rcases mem_dbPatch he with h1 | ⟨b, hb, he2⟩
              · exact hinv e h1
              · rw [he2]
                exact le_max_left 0 _
            | none =>
              have heq : applyConvexOp db (ConvexOp.deleteComment cid u) =
                  ⟨db.posts, dbDelete db.comments cid, db.nextId⟩ := by
                simp only [applyConvexOp, Convex.deleteComment, hget]
                rw [if_neg (by simp [hauth])]
                simp only [hgetp]
              rw [heq]
              intro e he
              exact hinv e he
          · have heq : applyConvexOp db (ConvexOp.deleteComment cid u) = db := by
              simp only [applyConvexOp, Convex.deleteComment, hget]
              rw [if_pos (decide_eq_true hauth)]
            rw [heq]
            exact hinv

/-- Witness for C4: on a desynchronized store holding one live comment but
a recorded `commentCount` of 0 (a lost increment), deleting the comment —
a decrement with nothing left to absorb it — leaves the count at 0, and
`commentCount_floor` instantiated there confirms non-negativity. -/
theorem commentCount_floor_witness :
    dbGet (Convex.createComment
      ⟨[(0, ⟨"a", "hello", none, none, 0, [], 0, 7⟩)], [], 1⟩ 0 "b" "hi" 8).posts 0 =
      some ⟨"a", "hello", none, none, 0, [], 1, 7⟩ ∧
    (0 : Int) ≤ (⟨"a", "hello", none, none, 0, [], 0, 7⟩ : PostDoc).commentCount := by
  constructor
  · exact (commentCount_floor.1
      ⟨[(0, ⟨"a", "hello", none, none, 0, [], 0, 7⟩)], [], 1⟩ 0 "b" "hi" 8
      ⟨"a", "hello", none, none, 0, [], 0, 7⟩ (by decide))
  · exact commentCount_floor.2.2
      ⟨[(0, ⟨"a", "hello", none, none, 0, [], 0, 7⟩)],
       [(1, ⟨0, "u", "late", 0, [], 7⟩)], 2⟩
      (fun e he => by rcases List.mem_singleton.mp he with rfl; decide)
      [.deleteComment 1 "u"]
      (0, ⟨"a", "hello", none, none, 0, [], 0, 7⟩) (by decide)

/-- C5: recipient resolution. Non-empty explicit `recipientIds` give an
INDIVIDUAL message whose recipients are exactly the supplied ids, with no
per-recipient permission check; otherwise a supplied `targetRole` gives a
GROUP message whose recipients are all users of that role, filtered to the
explicit `targetBranch` when one is given, unfiltered by branch for an
OFFICIAL sender, and filtered to the sender's own branch for a TEACHER
sender. -/
theorem resolveRecipients_cases :
    (∀ (user : UserRec) (users : List UserRec) (tr tb : Option String)
        (ids : List String), ids ≠ [] →
      resolveRecipients user users tr tb (some ids) = ("INDIVIDUAL", ids)) ∧
    (∀ (user : UserRec) (users : List UserRec) (tr b : String)
        (rids : Option (List String)), tr ≠ "" → b ≠ "" →
        recipientIdsTruthy rids = false →
      resolveRecipients user users (some tr) (some b) rids =
        ("GROUP", (users.filter (fun u =>
          decide (u.role = tr) && decide (u.branch = some b))).map (fun u => u.id))) ∧
    (∀ (user : UserRec) (users : List UserRec) (tr : String) (tb : Option String)
        (rids : Option (List String)), tr ≠ "" → optTruthy tb = false →
        recipientIdsTruthy rids = false → user.role = "OFFICIAL" →
      resolveRecipients user users (some tr) tb rids =
        ("GROUP", (users.filter (fun u => decide (u.role = tr))).map (fun u => u.id))) ∧
    (∀ (user : UserRec) (users : List UserRec) (tr : String) (tb : Option String)
        (rids : Option (List String)), tr ≠ "" → optTruthy tb = false →
        recipientIdsTruthy rids = false → user.role = "TEACHER" →
      resolveRecipients user users (some tr) tb rids =
        ("GROUP", (users.filter (fun u =>
          decide (u.role = tr) && decide (u.branch = user.branch))).map (fun u => u.id))) := by
  refine ⟨?_, ?_, ?_, ?_⟩
  · intro user users tr tb ids hne
    have hlen : 0 < ids.length := List.length_pos.mpr hne
    rw [resolveRecipients.eq_def,
      if_pos (show recipientIdsTruthy (some ids) = true by simp [recipientIdsTruthy, hlen])]
    rfl
  · intro user users tr b rids htr hb hrids
    have hob : optTruthy (some b) = true := by simp [optTruthy, hb]
    simp [resolveRecipients.eq_def, hrids, htr, hob, matchesBranch]
  · intro user users tr tb rids htr htb hrids hrole
    simp [resolveRecipients.eq_def, hrids, htr, htb, hrole, matchesBranch]
  · intro user users tr tb rids htr htb hrids hrole
    have hroleneq : user.role ≠ "OFFICIAL" := by
      rw [hrole]; decide
    simp [resolveRecipients.eq_def, hrids, htr, htb, hrole, hroleneq, matchesBranch]

/-- Witness for C5: the spec's resolver example — an IT teacher targeting
STUDENT with no explicit branch resolves, on the demo user table, to
exactly the three IT students; plus an explicit-recipient resolution. -/
theorem resolveRecipients_cases_witness :
    resolveRecipients ⟨"t2", "TEACHER", some "IT"⟩ demoUsers
      (some "STUDENT") none none = ("GROUP", ["s1", "s2", "s3"]) ∧
    resolveRecipients ⟨"t2", "TEACHER", some "IT"⟩ demoUsers
      none none (some ["o1"]) = ("INDIVIDUAL", ["o1"]) := by
  constructor
  · exact (resolveRecipients_cases.2.2.2 ⟨"t2", "TEACHER", some "IT"⟩ demoUsers
      "STUDENT" none none (by decide) rfl rfl rfl).trans (by decide)
  · exact resolveRecipients_cases.1 ⟨"t2", "TEACHER", some "IT"⟩ demoUsers
      none none ["o1"] (by decide)

theorem sendMessage_ok_of_gate {db : AppDB} {user : UserRec} {content : String}
    {targetRole targetBranch : Option String} {recipientIds : Option (List String)}
    (hvalid : sendMessageValid content targetRole = true)
    (hgate : validateMessagePermissions user (orDefault targetRole "STUDENT")
      (orNull targetBranch) = true) :
    ∃ db', sendMessage db user content targetRole targetBranch recipientIds =
      Except.ok db' := by
  rw [sendMessage, if_pos hvalid, if_pos hgate]
  by_cases hlen :
      (resolveRecipients user db.users targetRole targetBranch recipientIds).2.length > 0
  · exact ⟨_, by rw [if_pos hlen]⟩
  · exact ⟨_, by rw [if_neg hlen]⟩

theorem sendMessage_permission_denied {db : AppDB} {user : UserRec} {content : String}
    {targetRole targetBranch : Option String} {recipientIds : Option (List String)}
    (hvalid : sendMessageValid content targetRole = true)
    (hgate : validateMessagePermissions user (orDefault targetRole "STUDENT")
      (orNull targetBranch) = false) :
    sendMessage db user content targetRole targetBranch recipientIds =
      Except.error SendError.permission := by
  rw [sendMessage, if_pos hvalid, if_neg (by simp [hgate])]

/-- C10: when a send supplies only explicit `recipientIds` (no targetRole,
no targetBranch), the permission gate degenerates to
`canSend(sender, STUDENT, null)`: the request is rejected with
PermissionDenied exactly when that evaluation fails, so a TEACHER whose
branch is non-null is always denied such an individual message, while a
STUDENT or OFFICIAL sender always passes the gate, regardless of who the
listed recipients are. -/
theorem explicit_recipients_gate :
    (∀ (db : AppDB) (user : UserRec) (content : String) (ids : List String),
      content.length ≥ 1 →
      (sendMessage db user content none none (some ids) =
          Except.error SendError.permission ↔
        validateMessagePermissions user "STUDENT" none = false)) ∧
    (∀ (db : AppDB) (user : UserRec) (content : String) (ids : List String)
        (b : String),
      content.length ≥ 1 → user.role = "TEACHER" → user.branch = some b →
      sendMessage db user content none none (some ids) =
        Except.error SendError.permission) ∧
    (∀ (db : AppDB) (user : UserRec) (content : String) (ids : List String),
      content.length ≥ 1 → (user.role = "STUDENT" ∨ user.role = "OFFICIAL") →
      ∃ db', sendMessage db user content none none (some ids) = Except.ok db') := by
  have hvalid : ∀ content : String, content.length ≥ 1 →
      sendMessageValid content none = true := by
    intro content hc
    simp [sendMessageValid, hc]
  refine ⟨?_, ?_, ?_⟩
  · intro db user content ids hc
    constructor
    · intro h
      cases hgate : validateMessagePermissions user "STUDENT" none with
      | false => rfl
      | true =>
        obtain ⟨db', hok⟩ := sendMessage_ok_of_gate (hvalid content hc)
          (show validateMessagePermissions user (orDefault none "STUDENT")
            (orNull none) = true from hgate)
        rw [hok] at h
        cases h
    · intro hgate
      exact sendMessage_permission_denied (hvalid content hc)
        (show validateMessagePermissions user (orDefault none "STUDENT")
          (orNull none) = false from hgate)
  · intro db user content ids b hc hrole hbranch
    refine sendMessage_permission_denied (hvalid content hc) ?_
    show validateMessagePermissions user "STUDENT" none = false
    have h1 : user.role ≠ "OFFICIAL" := by rw [hrole]; decide
    simp [validateMessagePermissions, hrole, h1, hbranch]
  · intro db user content ids hc hrole
    refine sendMessage_ok_of_gate (hvalid content hc) ?_
    show validateMessagePermissions user "STUDENT" none = true
    rcases hrole with h | h
    · have h1 : user.role ≠ "OFFICIAL" := by rw [h]; decide
      have h2 : user.role ≠ "TEACHER" := by rw [h]; decide
      simp [validateMessagePermissions, h, h1, h2]
    · simp [validateMessagePermissions, h]

/-- Witness for C10: on the demo store, an IT teacher sending an
explicit-recipient message is denied, while an IT student sending to the
same recipient list passes the gate. -/
theorem explicit_recipients_gate_witness :
    sendMessage demoAppDB ⟨"t2", "TEACHER", some "IT"⟩ "hello" none none
      (some ["s1", "s4"]) = Except.error SendError.permission ∧
    ∃ db', sendMessage demoAppDB ⟨"s1", "STUDENT", some "IT"⟩ "hello" none none
      (some ["t1", "o1"]) = Except.ok db' := by
  constructor
  · exact explicit_recipients_gate.2.1 demoAppDB ⟨"t2", "TEACHER", some "IT"⟩
      "hello" ["s1", "s4"] "IT" (by decide) rfl rfl
  · exact explicit_recipients_gate.2.2 demoAppDB ⟨"s1", "STUDENT", some "IT"⟩
      "hello" ["t1", "o1"] (by decide) (Or.inl rfl)

/-- C6 (refuting the fan-out claim, against the code): `sendMessage`
creates no Notification rows at all — `createNotification` exists but is
never invoked by any handler — so a GROUP message resolved to three
recipients yields zero notifications, not three. The first clause shows
every successful send leaves the notifications table untouched; the second
evaluates a concrete group send that resolves to the three IT students and
produces zero notifications. -/
theorem sendMessage_creates_no_notifications :
    (∀ (db : AppDB) (user : UserRec) (content : String)
        (tr tb : Option String) (rids : Option (List String)) (db' : AppDB),
      sendMessage db user content tr tb rids = Except.ok db' →
      db'.notifications = db.notifications) ∧
    ((sendMessage demoAppDB ⟨"t2", "TEACHER", some "IT"⟩ "hello"
        (some "STUDENT") (some "IT") none).toOption.map
      (fun db' => (db'.notifications.length,
        db'.messages.map (fun m => m.recipients))) =
      some (0, [["s1", "s2", "s3"]])) := by
  constructor
  · intro db user content tr tb rids db' h
    simp only [sendMessage] at h
    split at h
    · split at h
      · split at h
        · injection h with h2
          subst h2
          rfl
        · injection h with h2
          subst h2
          rfl
      · cases h
    · cases h
  · decide

/-- Witness for C6: the no-notification clause of
`sendMessage_creates_no_notifications` applied to the concrete group send
of its second clause. -/
theorem sendMessage_creates_no_notifications_witness :
    ∃ db', sendMessage demoAppDB ⟨"t2", "TEACHER", some "IT"⟩ "hello"
      (some "STUDENT") (some "IT") none = Except.ok db' ∧
      db'.notifications = demoAppDB.notifications := by
  cases h : sendMessage demoAppDB ⟨"t2", "TEACHER", some "IT"⟩ "hello"
      (some "STUDENT") (some "IT") none with
  | ok db' =>
    exact ⟨db', rfl, sendMessage_creates_no_notifications.1 demoAppDB
      ⟨"t2", "TEACHER", some "IT"⟩ "hello" (some "STUDENT") (some "IT") none db' h⟩
  | error e =>
    have h2 := sendMessage_creates_no_notifications.2
    rw [h] at h2
    simp [Except.toOption] at h2

/-- C7: `createNotification` never propagates failure. Whatever the
outcome of the underlying store write, the wrapper returns normally; the
users/posts/comments/messages tables — the state of whichever triggering
operation preceded it — are untouched in both outcomes; a failed write
leaves the store exactly as it was; a successful write appends exactly one
notification row. -/
theorem createNotification_never_propagates :
    ∀ (db : AppDB) (u ty ref c : String) (ok : Bool),
      (createNotification db u ty ref c ok).users = db.users ∧
      (createNotification db u ty ref c ok).posts = db.posts ∧
      (createNotification db u ty ref c ok).comments = db.comments ∧
      (createNotification db u ty ref c ok).messages = db.messages ∧
      (ok = false → createNotification db u ty ref c ok = db) ∧
      (ok = true → (createNotification db u ty ref c ok).notifications =
        db.notifications ++ [⟨db.nextId, u, ty, ref, c, false⟩]) := by
  intro db u ty ref c ok
  cases ok <;> simp [createNotification, notificationCreateWrite]

/-- Witness for C7: a failed notification write on the demo store leaves it
unchanged, and a successful one appends exactly one row. -/
theorem createNotification_never_propagates_witness :
    createNotification demoAppDB "s1" "message" "m1" "hi" false = demoAppDB ∧
    (createNotification demoAppDB "s1" "message" "m1" "hi" true).notifications =
      demoAppDB.notifications ++ [⟨1, "s1", "message", "m1", "hi", false⟩] := by
  constructor
  · exact (createNotification_never_propagates demoAppDB "s1" "message" "m1" "hi"
      false).2.2.2.2.1 rfl
  · exact (createNotification_never_propagates demoAppDB "s1" "message" "m1" "hi"
      true).2.2.2.2.2 rfl

/-- Counterexample to C8: with exactly one store write succeeding, the
`createComment` handler fails (the catch answers 500), yet the comment row
it inserted persists while the parent post's `commentCount` was never
incremented — a partial state remains, so the all-or-nothing claim is
false on the code. -/
theorem mutation_atomicity_counterexample :
    (createCommentRun demoAppDB ⟨"s1", "STUDENT", some "IT"⟩ 0 "hi" 1).2 = false ∧
    (createCommentRun demoAppDB ⟨"s1", "STUDENT", some "IT"⟩ 0 "hi" 1).1 ≠ demoAppDB ∧
    (createCommentRun demoAppDB ⟨"s1", "STUDENT", some "IT"⟩ 0 "hi" 1).1.comments.map
      (fun c => (c.postId, c.authorId, c.content)) = [(0, "s1", "hi")] ∧
    (findPost (createCommentRun demoAppDB ⟨"s1", "STUDENT", some "IT"⟩ 0 "hi" 1).1.posts
      0).map (fun p => p.commentCount) = some 0 := by
  decide

theorem map_update_id_eq_self {l : List MessageRec} {i : Nat}
    {g : MessageRec → MessageRec} (h : ∀ m ∈ l, m.id ≠ i) :
    l.map (fun m => if m.id = i then g m else m) = l := by
  induction l with
  | nil => rfl
  | cons x xs ih =>
    simp only [List.map_cons]
    rw [if_neg (h x (List.mem_cons_self x xs)),
      ih (fun m hm => h m (List.mem_cons_of_mem x hm))]

/-- C8 as amended: the single-write like/unlike toggle is atomic under
every failure pattern (either nothing happened or the full toggle did);
the two-write mutations — comment creation, comment deletion, message
send — leave the store unchanged when the failure precedes their first
write and apply their full effect when both writes succeed, but a failure
between the two writes leaves exactly the first write's partial state: a
comment row without the parent's increment, a deleted row without the
decrement, a message row without its resolved recipients. -/
theorem mutation_atomicity_amended :
    (∀ (db : AppDB) (user : UserRec) (pid : Nat) (fuel : Nat),
      likePostRun db user pid fuel = (db, false) ∨
      ∃ post, findPost db.posts pid = some post ∧
        likePostRun db user pid fuel =
          ({ db with posts := db.posts.map (fun p =>
            if p.id = pid then likePostUpdate post user.id else p) }, true)) ∧
    (∀ (db : AppDB) (user : UserRec) (pid : Nat) (content : String),
      createCommentRun db user pid content 0 = (db, false)) ∧
    (∀ (db : AppDB) (user : UserRec) (pid : Nat) (content : String) (fuel : Nat)
        (post : PrismaPost), content.length ≥ 1 → findPost db.posts pid = some post →
        2 ≤ fuel →
      createCommentRun db user pid content fuel =
        ({ db with
            comments := db.comments ++ [⟨db.nextId, pid, user.id, content, 0, []⟩],
            posts := db.posts.map (fun p =>
              if p.id = pid then { p with commentCount := p.commentCount + 1 } else p),
            nextId := db.nextId + 1 }, true)) ∧
    (∀ (db : AppDB) (user : UserRec) (pid : Nat) (content : String)
        (post : PrismaPost), content.length ≥ 1 → findPost db.posts pid = some post →
      createCommentRun db user pid content 1 =
        ({ db with
            comments := db.comments ++ [⟨db.nextId, pid, user.id, content, 0, []⟩],
            nextId := db.nextId + 1 }, false)) ∧
    (∀ (db : AppDB) (user : UserRec) (cid : Nat),
      deleteCommentRun db user cid 0 = (db, false)) ∧
    (∀ (db : AppDB) (user : UserRec) (cid : Nat) (fuel : Nat)
        (comment : PrismaComment), findComment db.comments cid = some comment →
        comment.authorId = user.id → 2 ≤ fuel →
      deleteCommentRun db user cid fuel =
        ({ db with
            comments := db.comments.filter (fun c => decide (c.id ≠ cid)),
            posts := db.posts.map (fun p =>
              if p.id = comment.postId then { p with commentCount := p.commentCount - 1 }
              else p) }, true)) ∧
    (∀ (db : AppDB) (user : UserRec) (cid : Nat) (comment : PrismaComment),
        findComment db.comments cid = some comment → comment.authorId = user.id →
      deleteCommentRun db user cid 1 =
        ({ db with comments := db.comments.filter (fun c => decide (c.id ≠ cid)) },
         false)) ∧
    (∀ (db : AppDB) (user : UserRec) (content : String) (tr tb : Option String)
        (rids : Option (List String)),
      sendMessageRun db user content tr tb rids 0 = (db, false)) ∧
    (∀ (db : AppDB) (user : UserRec) (content : String) (tr tb : Option String)
        (rids : Option (List String)) (fuel : Nat),
      sendMessageValid content tr = true →
      validateMessagePermissions user (orDefault tr "STUDENT") (orNull tb) = true →
      2 ≤ fuel → (∀ m ∈ db.messages, m.id ≠ db.nextId) →
      sendMessageRun db user content tr tb rids fuel =
        ({ db with
            messages := db.messages ++
              [⟨db.nextId, user.id, content,
                (resolveRecipients user db.users tr tb rids).1, orNull tr, orNull tb,
                (resolveRecipients user db.users tr tb rids).2, false⟩],
            nextId := db.nextId + 1 }, true)) ∧
    (∀ (db : AppDB) (user : UserRec) (content : String) (tr tb : Option String)
        (rids : Option (List String)),
      sendMessageValid content tr = true →
      validateMessagePermissions user (orDefault tr "STUDENT") (orNull tb) = true →
      (resolveRecipients user db.users tr tb rids).2 ≠ [] →
      sendMessageRun db user content tr tb rids 1 =
        ({ db with
            messages := db.messages ++
              [⟨db.nextId, user.id, content,
                (resolveRecipients user db.users tr tb rids).1, orNull tr, orNull tb,
                [], false⟩],
            nextId := db.nextId + 1 }, false)) := by
  refine ⟨?_, ?_, ?_, ?_, ?_, ?_, ?_, ?_, ?_, ?_⟩
  · intro db user pid fuel
    cases hget : findPost db.posts pid with
    | none => exact Or.inl (by rw [likePostRun.eq_def, hget])
    | some post =>
      by_cases hf : fuel = 0
      · refine Or.inl ?_
        rw [likePostRun.eq_def]
        simp only [hget]
        rw [if_pos hf]
      · refine Or.inr ⟨post, rfl, ?_⟩
        rw [likePostRun.eq_def]
        simp only [hget]
        rw [if_neg hf]
  · intro db user pid content
    by_cases hc : decide (content.length ≥ 1) = true
    · cases hget : findPost db.posts pid with
      | none =>
        rw [createCommentRun.eq_def, if_pos hc]
        simp only [hget]
      | some post =>
        rw [createCommentRun.eq_def, if_pos hc]
        simp only [hget]
        rw [if_pos trivial]
    · rw [createCommentRun.eq_def, if_neg hc]
  · intro db user pid content fuel post hc hget hfuel
    have h0 : ¬ (fuel = 0) := by omega
    have h1 : ¬ (fuel = 1) := by omega
    rw [createCommentRun.eq_def, if_pos (decide_eq_true hc)]
    simp only [hget]
    rw [if_neg h0, if_neg h1]
  · intro db user pid content post hc hget
    rw [createCommentRun.eq_def, if_pos (decide_eq_true hc)]
    simp only [hget]
    rw [if_pos trivial, if_neg Nat.one_ne_zero]
  · intro db user cid
    cases hget : findComment db.comments cid with
    | none =>
      rw [deleteCommentRun.eq_def]
      simp only [hget]
    | some comment =>
      rw [deleteCommentRun.eq_def]
      simp only [hget]
      by_cases hauth : decide (comment.authorId ≠ user.id) = true
      · rw [if_pos hauth]
      · rw [if_neg hauth, if_pos trivial]
  · intro db user cid fuel comment hget hauth hfuel
    have h0 : ¬ (fuel = 0) := by omega
    have h1 : ¬ (fuel = 1) := by omega
    rw [deleteCommentRun.eq_def]
    simp only [hget]
    rw [if_neg (by simp [hauth]), if_neg h0, if_neg h1]
  · intro db user cid comment hget hauth
    rw [deleteCommentRun.eq_def]
    simp only [hget]
    rw [if_neg (by simp [hauth]), if_neg Nat.one_ne_zero, if_pos trivial]
  · intro db user content tr tb rids
    rw [sendMessageRun.eq_def]
    by_cases hv : sendMessageValid content tr = true
    · rw [if_pos hv]
      by_cases hg : validateMessagePermissions user (orDefault tr "STUDENT")
          (orNull tb) = true
      · rw [if_pos hg, if_pos rfl]
      · rw [if_neg hg]
    · rw [if_neg hv]
  · intro db user content tr tb rids fuel hv hg hfuel hfresh
    have h0 : ¬ (fuel = 0) := by omega
    have h1 : ¬ (fuel = 1) := by omega
    rw [sendMessageRun.eq_def, if_pos hv, if_pos hg, if_neg h0]
    by_cases hlen : (resolveRecipients user db.users tr tb rids).2.length > 0
    · rw [if_pos hlen, if_neg h1]
      have hmsg : (db.messages ++
            [(⟨db.nextId, user.id, content,
              (resolveRecipients user db.users tr tb rids).1, orNull tr, orNull tb,
              [], false⟩ : MessageRec)]).map
          (fun m => if m.id = db.nextId then
            { m with recipients := (resolveRecipients user db.users tr tb rids).2 }
            else m) =
          db.messages ++
            [⟨db.nextId, user.id, content,
              (resolveRecipients user db.users tr tb rids).1, orNull tr, orNull tb,
              (resolveRecipients user db.users tr tb rids).2, false⟩] := by
        rw [List.map_append, map_update_id_eq_self hfresh]
        simp
      exact congrArg (fun ms =>
        (({ db with messages := ms, nextId := db.nextId + 1 } : AppDB), true)) hmsg
    · rw [if_neg hlen]
      have hempty : (resolveRecipients user db.users tr tb rids).2 = [] := by
        rcases List.eq_nil_or_concat (resolveRecipients user db.users tr tb rids).2 with
          h | ⟨l2, b, h⟩
        · exact h
        · rw [h] at hlen
          simp at hlen
      rw [hempty]
  · intro db user content tr tb rids hv hg hne
    have hlen : (resolveRecipients user db.users tr tb rids).2.length > 0 :=
      List.length_pos.mpr hne
    rw [sendMessageRun.eq_def, if_pos hv, if_pos hg,
      if_neg (by omega : ¬ (1 = 0)), if_pos hlen, if_pos rfl]

/-- Witness for C8's amended theorem: on the demo store, a createComment
run with ample fuel applies both the row insert and the increment, one
with fuel 1 leaves the partial comment-without-increment state, and the
like toggle with fuel 0 changes nothing. -/
theorem mutation_atomicity_amended_witness :
    createCommentRun demoAppDB ⟨"s1", "STUDENT", some "IT"⟩ 0 "hi" 2 =
      ({ demoAppDB with
          comments := [⟨1, 0, "s1", "hi", 0, []⟩],
          posts := [⟨0, "o1", "p", none, none, 0, [], 1⟩],
          nextId := 2 }, true) ∧
    createCommentRun demoAppDB ⟨"s1", "STUDENT", some "IT"⟩ 0 "hi" 1 =
      ({ demoAppDB with comments := [⟨1, 0, "s1", "hi", 0, []⟩], nextId := 2 }, false) ∧
    likePostRun demoAppDB ⟨"s1", "STUDENT", some "IT"⟩ 0 0 = (demoAppDB, false) := by
  refine ⟨?_, ?_, ?_⟩
  · exact (mutation_atomicity_amended.2.2.1 demoAppDB ⟨"s1", "STUDENT", some "IT"⟩
      0 "hi" 2 ⟨0, "o1", "p", none, none, 0, [], 0⟩ (by decide) (by decide)
      (by omega)).trans (by decide)
  · exact (mutation_atomicity_amended.2.2.2.1 demoAppDB ⟨"s1", "STUDENT", some "IT"⟩
      0 "hi" ⟨0, "o1", "p", none, none, 0, [], 0⟩ (by decide) (by decide)).trans (by decide)
  · rcases mutation_atomicity_amended.1 demoAppDB ⟨"s1", "STUDENT", some "IT"⟩ 0 0
      with h | ⟨post, hget, h⟩
    · exact h
    · have hcomp : likePostRun demoAppDB ⟨"s1", "STUDENT", some "IT"⟩ 0 0 =
          (demoAppDB, false) := by decide
      rw [h] at hcomp
      exact absurd (show true = false from congrArg Prod.snd hcomp) (by decide)

/-- Counterexample to C9's tie-breaking clause: two messages with equal
timestamps, the B→A message inserted into the store first. `getConversation`
concatenates the A→B direction before the B→A direction and the stable sort
keeps concatenation order on the tie, so the assembled thread is not in
insertion order. -/
theorem assembleThread_tie_counterexample :
    getConversation [tieMsgBA, tieMsgAB] "A" "B" = [tieMsgAB, tieMsgBA] ∧
    tieMsgAB ≠ tieMsgBA ∧
    getConversation [tieMsgBA, tieMsgAB] "A" "B" ≠ [tieMsgBA, tieMsgAB] := by
  decide

/-- C9 as amended: `getConversation` assembles both directions of the
two-party thread in ascending timestamp order — it is a sorted permutation
of the two directional queries, and for strictly increasing timestamps
t1 < t2 < t3 the assembled order is exactly [t1, t2, t3] regardless of
insertion order — but timestamp ties are broken by query order (all
userA→userB messages before all userB→userA messages, each direction in
insertion order), not by global insertion order. -/
theorem assembleThread_sorted :
    (∀ (msgs : List ConvMsg) (u1 u2 : String),
      List.Sorted tsLE (getConversation msgs u1 u2)) ∧
    (∀ (msgs : List ConvMsg) (u1 u2 : String),
      (getConversation msgs u1 u2).Perm
        (directionFilter msgs u1 u2 ++ directionFilter msgs u2 u1)) ∧
    (∀ (t1 t2 t3 : Int) (c1 c2 c3 : String) (msgs : List ConvMsg),
      t1 < t2 → t2 < t3 →
      msgs.Perm [⟨"A", c1, none, none, ["B"], false, t1⟩,
                 ⟨"B", c2, none, none, ["A"], false, t2⟩,
                 ⟨"A", c3, none, none, ["B"], false, t3⟩] →
      getConversation msgs "A" "B" =
        [⟨"A", c1, none, none, ["B"], false, t1⟩,
         ⟨"B", c2, none, none, ["A"], false, t2⟩,
         ⟨"A", c3, none, none, ["B"], false, t3⟩]) := by
  have hsorted : ∀ (msgs : List ConvMsg) (u1 u2 : String),
      List.Sorted tsLE (getConversation msgs u1 u2) := by
    intro msgs u1 u2
    exact List.sorted_insertionSort tsLE _
  have hperm : ∀ (msgs : List ConvMsg) (u1 u2 : String),
      (getConversation msgs u1 u2).Perm
        (directionFilter msgs u1 u2 ++ directionFilter msgs u2 u1) := by
    intro msgs u1 u2
    exact List.perm_insertionSort tsLE _
  refine ⟨hsorted, hperm, ?_⟩
  intro t1 t2 t3 c1 c2 c3 msgs h12 h23 hp
  have hf1 : directionFilter msgs "A" "B" =
      List.filter (fun m => decide (m.senderId = "A") &&
        decide ("B" ∈ m.recipientIds)) msgs := rfl
  have htarget1 : List.filter (fun m => decide (m.senderId = "A") &&
      decide ("B" ∈ m.recipientIds))
      [(⟨"A", c1, none, none, ["B"], false, t1⟩ : ConvMsg),
       ⟨"B", c2, none, none, ["A"], false, t2⟩,
       ⟨"A", c3, none, none, ["B"], false, t3⟩] =
      [⟨"A", c1, none, none, ["B"], false, t1⟩,
       ⟨"A", c3, none, none, ["B"], false, t3⟩] := by
    simp [List.filter]
  have htarget2 : List.filter (fun m => decide (m.senderId = "B") &&
      decide ("A" ∈ m.recipientIds))
      [(⟨"A", c1, none, none, ["B"], false, t1⟩ : ConvMsg),
       ⟨"B", c2, none, none, ["A"], false, t2⟩,
       ⟨"A", c3, none, none, ["B"], false, t3⟩] =
      [⟨"B", c2, none, none, ["A"], false, t2⟩] := by
    simp [List.filter]
  have hpr : (getConversation msgs "A" "B").Perm
      [⟨"A", c1, none, none, ["B"], false, t1⟩,
       ⟨"B", c2, none, none, ["A"], false, t2⟩,
       ⟨"A", c3, none, none, ["B"], false, t3⟩] := by
    refine (hperm msgs "A" "B").trans ?_
    refine (List.Perm.append (hp.filter _) (hp.filter _)).trans ?_
    rw [htarget1, htarget2]
    exact List.Perm.cons _ (List.Perm.swap _ _ _)
  have hne : (getConversation msgs "A" "B").Pairwise
      (fun a b => a.timestamp ≠ b.timestamp) := by
    refine ((List.Perm.pairwise_iff (fun h => Ne.symm h) hpr).mpr ?_)
    refine List.Pairwise.cons ?_ (List.Pairwise.cons ?_ (List.pairwise_singleton _ _))
    · intro m hm
      rcases List.mem_cons.mp hm with rfl | hm
      · show t1 ≠ t2
        omega
      · rcases List.mem_singleton.mp hm with rfl
        show t1 ≠ t3
        omega
    · intro m hm
      rcases List.mem_singleton.mp hm with rfl
      show t2 ≠ t3
      omega
  have hlt : List.Sorted tsLT (getConversation msgs "A" "B") := by
    refine List.Pairwise.imp₂ (fun a b hle hneq => lt_of_le_of_ne hle hneq)
      (hsorted msgs "A" "B") hne
  have htlt : List.Sorted tsLT
      [(⟨"A", c1, none, none, ["B"], false, t1⟩ : ConvMsg),
       ⟨"B", c2, none, none, ["A"], false, t2⟩,
       ⟨"A", c3, none, none, ["B"], false, t3⟩] := by
    refine List.Pairwise.cons ?_ (List.Pairwise.cons ?_ (List.pairwise_singleton _ _))
    · intro m hm
      rcases List.mem_cons.mp hm with rfl | hm
      · show tsLT _ _
        exact h12
      · rcases List.mem_singleton.mp hm with rfl
        show tsLT _ _
        exact h12.trans h23
    · intro m hm
      rcases List.mem_singleton.mp hm with rfl
      show tsLT _ _
      exact h23
  exact List.eq_of_perm_of_sorted hpr hlt htlt

/-- Witness for C9's amended theorem: the three-message thread at
timestamps 10 < 20 < 30, inserted into the store in reverse, assembles as
[t1, t2, t3]. -/
theorem assembleThread_sorted_witness :
    getConversation
      [⟨"A", "m3", none, none, ["B"], false, 30⟩,
       ⟨"B", "m2", none, none, ["A"], false, 20⟩,
       ⟨"A", "m1", none, none, ["B"], false, 10⟩] "A" "B" =
      [⟨"A", "m1", none, none, ["B"], false, 10⟩,
       ⟨"B", "m2", none, none, ["A"], false, 20⟩,
       ⟨"A", "m3", none, none, ["B"], false, 30⟩] :=
  assembleThread_sorted.2.2 10 20 30 "m1" "m2" "m3"
    [⟨"A", "m3", none, none, ["B"], false, 30⟩,
     ⟨"B", "m2", none, none, ["A"], false, 20⟩,
     ⟨"A", "m1", none, none, ["B"], false, 10⟩]
    (by decide) (by decide) (by decide)

end NotifApp
